import Mathlib

/-!
# Verification of the gl-rs registry-filtering and binding-generation core

Shallow embedding of the generator code of the gl-rs repository:

* `src/generator/main.rs` — the stand-alone generator: registry model
  (`Enum`, `Binding`, `Cmd`, `Registry`), first-seen-wins deduplicating
  iteration (`for_enums`, `for_cmds`), the emission helpers
  (`write_enum`, `gen_binding_ident`, `gen_binding`, `gen_param_list`,
  `gen_param_ident_list`, `gen_param_ty_list`, `gen_symbol_name`) and the
  runtime state machine of the generated dynamically-loaded bindings
  (`FnPtr`, the `storage` slots, the per-command `fn_mod` load operation).
* `src/gl_generator/lib.rs` — the macro entry point `generate_bindings`:
  parsing of the `api` / `profile` / `version` / `generator` / `extensions`
  selection fields, duplicate-field detection, defaulting.
* `gl_generator/generators/static_struct_gen.rs` — the struct-of-stub-methods
  generator: stub `load_with`, delegating methods, externally-linked symbols.

Machine strings are Lean `String`s; emitted source fragments are modelled as
structured records whose fields correspond one-to-one to the holes of the
`fmt!` / `writeln!` templates in the source.
-/

/-! ## Registry model (src/generator/main.rs, `registry::*`)

The record shapes follow §6 of the specification and the field accesses in
`main.rs` (`enm.ident`, `enm.value`, `cmd.proto.ident`, `cmd.proto.ty`,
`cmd.params`, `cmd.is_safe`, `binding.ident`, `binding.ty`). -/

/-- One named constant of the registry (`Enum` record). -/

structure Enum where
  ident : String
  value : String
deriving DecidableEq, Repr

/-- One parameter or return slot of a command (`Binding` record):
an identifier and a registry type name. -/

structure Binding where
  ident : String
  ty : String
deriving DecidableEq, Repr

/-- One API function (`Cmd` record): prototype binding (identifier and
return type), ordered parameters, safety flag. -/

structure Cmd where
  proto : Binding
  params : List Binding
  is_safe : Bool
deriving DecidableEq, Repr

/-- The OpenGL namespace selector of `src/generator/main.rs` (`registry::Ns`). -/

inductive Ns where
  | Gl
  | Glx
  | Wgl
deriving DecidableEq, Repr

/-- The aggregate registry passed to the generator: ordered enums and
ordered commands. -/

structure Registry where
  enums : List Enum
  cmds : List Cmd
deriving DecidableEq, Repr

/-! ## First-seen-wins deduplicating iteration

`Generator::for_enums` and `Generator::for_cmds` walk the registry in
document order with a `seen` hash map of identifiers: an element whose
identifier was already seen is skipped (`loop`), otherwise the callback runs;
the identifier is inserted afterwards in both branches.  The embedding
returns the list of elements the callback receives; the `seen` hash map is a
list of identifiers (insertion of a present key does not change membership). -/

/-- The common loop body of `for_enums` / `for_cmds`: keep an element iff its
key has not been seen, inserting the key in both branches. -/

def for_unseen_go (key : α → String) (seen : List String) : List α → List α
  | [] => []
  | d :: ds =>
    if key d ∈ seen then for_unseen_go key (key d :: seen) ds
    else d :: for_unseen_go key (key d :: seen) ds

/-- `Generator::for_enums`: iterate the registry's enums, first occurrence of
each identifier only. -/

def for_enums (r : Registry) : List Enum :=
  for_unseen_go (fun e => e.ident) [] r.enums

/-- `Generator::for_cmds`: iterate the registry's commands, first occurrence
of each `proto.ident` only. -/

def for_cmds (r : Registry) : List Cmd :=
  for_unseen_go (fun c => c.proto.ident) [] r.cmds

/-- Concrete registry exercising `spec_c1`: a duplicated enum identifier `"A"`
and a duplicated command identifier `"glClear"`. -/

def c1_reg : Registry :=
  { enums := [⟨"A", "1"⟩, ⟨"A", "2"⟩, ⟨"B", "3"⟩],
    cmds := [⟨⟨"glClear", "c_void"⟩, [], false⟩,
             ⟨⟨"glClear", "GLenum"⟩, [], true⟩,
             ⟨⟨"glEnd", "c_void"⟩, [], false⟩] }

/-! ## Emission helpers (src/generator/main.rs) -/

/-- Modelled from the spec: `ty::to_rust_ty` lives in `src/generator/ty.rs`,
which is not among the provided sources.  §2 describes it as a static
type-mapping table from registry type names to target output type names; the
exact table contents are irrelevant to the claims below (which only use that
every parameter's type passes through the same total function), so it is
modelled as a representative lookup, unmapped names passing through marked. -/

def to_rust_ty (ty : String) : String :=
  match ty with
  | "GLenum" => "GLenum"
  | "GLboolean" => "GLboolean"
  | "GLuint" => "GLuint"
  | "GLint" => "GLint"
  | "GLsizei" => "GLsizei"
  | "c_void" => "c_void"
  | "const GLubyte *" => "*GLubyte"
  | t => "<unmapped " ++ t ++ ">"

/-- `Generator::gen_binding_ident`: with `use_idents` the parameter's
identifier, the reserved words `in` / `ref` / `type` renamed with a trailing
underscore; without `use_idents` the placeholder `_`. -/

def gen_binding_ident (binding : Binding) (use_idents : Bool) : String :=
  if use_idents then
    match binding.ident with
    | "in" => "in_"
    | "ref" => "ref_"
    | "type" => "type_"
    | ident => ident
  else "_"

/-- `Generator::gen_binding`: `"%s: %s"` of the (possibly renamed or
placeholder) identifier and the mapped type. -/

def gen_binding (binding : Binding) (use_idents : Bool) : String :=
  gen_binding_ident binding use_idents ++ ": " ++ to_rust_ty binding.ty

/-- The vector `cmd.params.iter().map(|b| gen_binding(b, use_idents))`
built by `Generator::gen_param_list` before `.connect(", ")`. -/

def gen_param_list_vec (cmd : Cmd) (use_idents : Bool) : List String :=
  cmd.params.map (fun b => gen_binding b use_idents)

/-- `Generator::gen_param_list`: the comma-joined parameter list. -/

def gen_param_list (cmd : Cmd) (use_idents : Bool) : String :=
  String.intercalate ", " (gen_param_list_vec cmd use_idents)

/-- The vector built by `Generator::gen_param_ident_list` before joining:
identifiers only, reserved words renamed. -/

def gen_param_ident_list_vec (cmd : Cmd) : List String :=
  cmd.params.map (fun b => gen_binding_ident b true)

/-- `Generator::gen_param_ident_list`: the comma-joined identifier list. -/

def gen_param_ident_list (cmd : Cmd) : String :=
  String.intercalate ", " (gen_param_ident_list_vec cmd)

/-- The vector built by `Generator::gen_param_ty_list` before joining:
mapped types only. -/

def gen_param_ty_list_vec (cmd : Cmd) : List String :=
  cmd.params.map (fun b => to_rust_ty b.ty)

/-- `Generator::gen_param_ty_list`: the comma-joined type list. -/

def gen_param_ty_list (cmd : Cmd) : String :=
  String.intercalate ", " (gen_param_ty_list_vec cmd)

/-- Modelled from the spec: `generators::gen_parameters` (used by
`static_struct_gen.rs` as `super::gen_parameters(cmd, with_idents,
with_types)`) lives in `gl_generator/generators/mod.rs`, absent from the
provided sources.  §4.3 `render_parameters` renders one fragment per
parameter under the four mode combinations — typed-and-named, named-only
(with reserved-word renaming), typed-only, positional placeholders — all
agreeing on count and order. -/

def gen_parameters (cmd : Cmd) (with_idents : Bool) (with_types : Bool) : List String :=
  cmd.params.map (fun b =>
    match with_idents, with_types with
    | true, true => gen_binding_ident b true ++ ": " ++ to_rust_ty b.ty
    | true, false => gen_binding_ident b true
    | false, true => to_rust_ty b.ty
    | false, false => "_")

/-- Concrete command exercising `spec_c2` at index `0` of a two-parameter
command. -/

def c2_cmd : Cmd :=
  ⟨⟨"glDrawArrays", "c_void"⟩,
   [⟨"mode", "GLenum"⟩, ⟨"count", "GLsizei"⟩], false⟩

/-! ## Enum emission (`Generator::write_enum`) -/

/-- The identifier escape of `write_enum`: an identifier whose first byte is
a digit gets a `_` prefix. -/

def write_enum_escaped_ident (enm : Enum) : String :=
  if enm.ident.front.isDigit then "_" ++ enm.ident else enm.ident

/-- The type chosen by `write_enum`: the or-pattern
`~"TRUE" | ~"FALSE" => ~"GLboolean"` on the escaped identifier overrides the
caller-supplied type; every other identifier keeps the caller's type. -/

def write_enum_ty (enm : Enum) (ty : String) : String :=
  if write_enum_escaped_ident enm = "TRUE" ∨ write_enum_escaped_ident enm = "FALSE"
  then "GLboolean" else ty

/-- The line emitted by `write_enum`: `pub static %s: %s = %s;`. -/

def write_enum_line (enm : Enum) (ty : String) : String :=
  "pub static " ++ write_enum_escaped_ident enm ++ ": " ++ write_enum_ty enm ty
    ++ " = " ++ enm.value ++ ";"

/-! ## Symbol names and the generated dynamic-loading runtime -/

/-- `Generator::gen_symbol_name`: namespace prefix concatenated with the
command identifier. -/

def gen_symbol_name (ns : Ns) (cmd : Cmd) : String :=
  (match ns with
   | Ns.Gl => "gl"
   | Ns.Glx => "glx"
   | Ns.Wgl => "wgl") ++ cmd.proto.ident

/-- Modelled from the spec: `generators::gen_symbol_name` used by
`static_struct_gen::write_fns` lives in `gl_generator/generators/mod.rs`,
absent from the provided sources; §4.3 defines it as the namespace prefix
concatenated with the command identifier. -/

def mod_gen_symbol_name (api : Ns) (ident : String) : String :=
  (match api with
   | Ns.Gl => "gl"
   | Ns.Glx => "glx"
   | Ns.Wgl => "wgl") ++ ident

/-- The function value held in a generated function-pointer slot: either the
per-command loud-failure stub `failing::$name` or a resolved address. -/

inductive FnPtrFun where
  | failing (name : String)
  | ptr (addr : Nat)
deriving DecidableEq, Repr

/-- The generated `pub struct FnPtr<F> { f: F, is_loaded: bool }`. -/

structure FnPtr where
  f : FnPtrFun
  is_loaded : Bool
deriving DecidableEq, Repr

/-- The generated `FnPtr::new(ptr, failing_fn)`: a successful resolver result
becomes a loaded slot; `None` falls back to the failing stub, unloaded. -/

def FnPtr.new (ptr : Option Nat) (failing_fn : FnPtrFun) : FnPtr :=
  match ptr with
  | some p => { f := FnPtrFun.ptr p, is_loaded := true }
  | none => { f := failing_fn, is_loaded := false }

/-- The generated `storage` module: one mutable slot per command name. -/

abbrev GlStorage := String → FnPtr

/-- The initializer emitted by `write_ptrs` for every slot:
`::FnPtr { f: ::failing::$name, is_loaded: false }`. -/

def initial_storage : GlStorage :=
  fun name => { f := FnPtrFun.failing name, is_loaded := false }

/-- The per-command `load_with` emitted by `write_fn_mods`:
`::storage::$name = ::FnPtr::new(loadfn($sym), ::failing::$name)` where
`$sym` is `gen_symbol_name` of the command — the resolver is consulted at
exactly that key.  Other slots are untouched. -/

def fn_mod_load_with (ns : Ns) (cmd : Cmd) (loadfn : String → Option Nat)
    (st : GlStorage) : GlStorage :=
  fun n =>
    if n = cmd.proto.ident then
      FnPtr.new (loadfn (gen_symbol_name ns cmd)) (FnPtrFun.failing cmd.proto.ident)
    else st n

/-- The aggregate `load_with` emitted by `write_load_fn`: every command's
per-command load, in deduplicated document order, over one resolver. -/

def load_with (ns : Ns) (r : Registry) (loadfn : String → Option Nat)
    (st : GlStorage) : GlStorage :=
  (for_cmds r).foldl (fun s c => fn_mod_load_with ns c loadfn s) st

/-- One runtime transition of the generated bindings: some command's
`load_with` is invoked with some resolver. -/

inductive Step (ns : Ns) : GlStorage → GlStorage → Prop
  | load (cmd : Cmd) (loadfn : String → Option Nat) (st : GlStorage) :
      Step ns st (fn_mod_load_with ns cmd loadfn st)

/-- Storage states reachable from the emitted initializers by load calls. -/

def Reachable (ns : Ns) (st : GlStorage) : Prop :=
  Relation.ReflTransGen (Step ns) initial_storage st

/-- Outcome of invoking a generated function: the failing stub fails loudly
(`fail!($name was not loaded)`); a resolved pointer dispatches. -/

inductive InvokeResult where
  | fails (name : String)
  | dispatch (addr : Nat)
deriving DecidableEq, Repr

/-- Invoking the generated free function for `name` calls `storage::$name.f`. -/

def invoke (st : GlStorage) (name : String) : InvokeResult :=
  match (st name).f with
  | FnPtrFun.failing n => InvokeResult.fails n
  | FnPtrFun.ptr a => InvokeResult.dispatch a

/-- The `fn_mod!($name, $sym)` invocation emitted by `write_fn_mods` for one
command: the module name and the quoted symbol key. -/

structure FnModItem where
  name : String
  sym : String
deriving DecidableEq, Repr

/-- `write_fn_mods` emits `fn_mod!(%s, "%s")` with the command identifier and
its `gen_symbol_name`. -/

def write_fn_mods_item (ns : Ns) (cmd : Cmd) : FnModItem :=
  { name := cmd.proto.ident, sym := gen_symbol_name ns cmd }

/-- One foreign declaration emitted by `static_struct_gen::write_fns`:
`#[link_name="{symbol}"] fn {name}({params}) -> {return_suffix};`, one record
field per template hole. -/

structure ExternFnItem where
  link_name : String
  name : String
  params : List String
  ret : String
deriving DecidableEq, Repr

/-- `static_struct_gen::write_fns` for one command: the link name is
`gen_symbol_name(registry.api(), &cmd.proto.ident)`. -/

def write_fns_item (api : Ns) (cmd : Cmd) : ExternFnItem :=
  { link_name := mod_gen_symbol_name api cmd.proto.ident,
    name := cmd.proto.ident,
    params := gen_parameters cmd true true,
    ret := cmd.proto.ty }

/-- Command used by the C3 trace: `glClear`, no parameters. -/

def c3_cmd : Cmd := ⟨⟨"glClear", "c_void"⟩, [], false⟩

/-- Storage after a first successful load of `glClear` (resolver finds the
symbol at address `1`). -/

def c3_st1 : GlStorage :=
  fn_mod_load_with Ns.Gl c3_cmd (fun _ => some 1) initial_storage

/-- Storage after a second load of `glClear` whose resolver lookup fails. -/

def c3_st2 : GlStorage :=
  fn_mod_load_with Ns.Gl c3_cmd (fun _ => none) c3_st1

/-- A second command, used to observe partial loading next to `glClear`. -/

def c3_cmd2 : Cmd := ⟨⟨"glEnd", "c_void"⟩, [], false⟩

/-- Command exercising `spec_c6`: registry identifier `Clear`, external
symbol `glClear`. -/

def c6_cmd : Cmd := ⟨⟨"Clear", "c_void"⟩, [], false⟩

/-- Command with a reserved-word parameter, exercising `spec_c7`. -/

def c7_cmd : Cmd :=
  ⟨⟨"glVertexAttribPointer", "c_void"⟩,
   [⟨"index", "GLuint"⟩, ⟨"type", "GLenum"⟩], false⟩

/-! ## Struct-of-stub-methods generator (gl_generator/generators/static_struct_gen.rs) -/

/-- The marker value type emitted by `write_struct`: `pub struct {api};` —
a fieldless unit struct, no stored state. -/

inductive StructVal where
  | mk
deriving DecidableEq, Repr

/-- The `load_with` stub emitted by `write_impl`: its body is just the marker
value `{api}`; `_loadfn` occurs nowhere in the body, so the returned value is
the marker and the list of symbols at which the resolver is consulted is
empty. -/

def static_struct_load_with (_loadfn : String → Option Nat) : StructVal × List String :=
  (StructVal.mk, [])

/-- One method emitted by `write_impl` for a command, one record field per
hole of its `writeln!` template: `pub unsafe fn {name}(&self, {typed_params})
-> {return_suffix} { {name}({idents}) }`. -/

structure MethodItem where
  name : String
  typed_params : List String
  ret : String
  body_callee : String
  body_args : List String
deriving DecidableEq, Repr

/-- `write_impl` for one command: the body calls the free function named by
the command's own identifier (the foreign declaration of `write_fns`), with
the identifier-only parameter rendering as arguments. -/

def write_impl_method (cmd : Cmd) : MethodItem :=
  { name := cmd.proto.ident,
    typed_params := gen_parameters cmd true true,
    ret := cmd.proto.ty,
    body_callee := cmd.proto.ident,
    body_args := gen_parameters cmd true false }

/-! ## Macro entry point (src/gl_generator/lib.rs, `generate_bindings`)

The syntax-extension handler walks the comma-separated fields of the macro
invocation, records each of the five selection fields at most once (a second
occurrence is a span error that aborts expansion), validates the `api`,
`profile` and `generator` values against their accepted sets, and finally
fills unset fields with the documented defaults.  Token-tree plumbing and
span bookkeeping are elided; each field of the invocation is one `FieldArg`,
and a span error is an `Except.error` carrying the message string passed to
`span_err`. -/

/-- The namespace selector of `src/gl_generator/registry` (six APIs). -/

inductive RegistryNs where
  | Gl
  | Glx
  | Wgl
  | Egl
  | Gles1
  | Gles2
deriving DecidableEq, Repr

/-- Validation of the `api` field value: the six accepted names map to a
namespace and an XML source (`khronos_api::*_XML`, modelled by its name);
any other string is the span error `Unknown API "..."`. -/

def parse_api_field (s : String) : Except String (RegistryNs × String) :=
  if s = "gl" then Except.ok (RegistryNs.Gl, "GL_XML")
  else if s = "glx" then Except.ok (RegistryNs.Glx, "GLX_XML")
  else if s = "wgl" then Except.ok (RegistryNs.Wgl, "WGL_XML")
  else if s = "egl" then Except.ok (RegistryNs.Egl, "EGL_XML")
  else if s = "gles1" then Except.ok (RegistryNs.Gles1, "GL_XML")
  else if s = "gles2" then Except.ok (RegistryNs.Gles2, "GL_XML")
  else Except.error ("Unknown API \"" ++ s ++ "\"")

/-- Validation of the `profile` field value: `core` and `compatibility` are
accepted; any other string is the span error `Unknown profile "..."`. -/

def parse_profile_field (s : String) : Except String String :=
  if s = "core" then Except.ok "core"
  else if s = "compatibility" then Except.ok "compatibility"
  else Except.error ("Unknown profile \"" ++ s ++ "\"")

/-- The generator names registered by `macro_handler`. -/

def generator_names : List String :=
  ["static", "global", "struct", "static_struct"]

/-- Validation of the `generator` field value against the registered
generator list; an unmatched name is the span error `Unknown generator
"..."`. -/

def parse_generator_field (s : String) : Except String String :=
  if s ∈ generator_names then Except.ok s
  else Except.error ("Unknown generator \"" ++ s ++ "\"")

/-- One comma-separated token group of a `generate_gl_bindings!` invocation:
the five selection fields, an unrecognized field name (`unknown`), or a group
whose first token is not an identifier at all (`noIdent`) — in particular the
single empty group that the comma-split of an empty invocation produces. -/

inductive FieldArg where
  | api (s : String)
  | profile (s : String)
  | version (s : String)
  | generator (s : String)
  | extensions (l : List String)
  | unknown (name : String)
  | noIdent
deriving DecidableEq, Repr

/-- The mutable accumulation state of `generate_bindings`: each selection
field is `None` until its field is seen. -/

structure Options where
  api : Option (RegistryNs × String)
  profile : Option String
  version : Option String
  generator : Option String
  extensions : Option (List String)
deriving DecidableEq, Repr

/-- The field-processing loop of `generate_bindings`: a field whose slot is
already set aborts with the corresponding `was already specified` error;
otherwise the value is validated and recorded.  An unknown field name aborts
with `Unknown field`. -/

def process_fields : List FieldArg → Options → Except String Options
  | [], acc => Except.ok acc
  | FieldArg.api s :: fs, acc =>
    if acc.api.isSome then Except.error "An API was already specified."
    else
      match parse_api_field s with
      | Except.error e => Except.error e
      | Except.ok v => process_fields fs { acc with api := some v }
  | FieldArg.profile s :: fs, acc =>
    if acc.profile.isSome then Except.error "A profile was already specified."
    else
      match parse_profile_field s with
      | Except.error e => Except.error e
      | Except.ok v => process_fields fs { acc with profile := some v }
  | FieldArg.version s :: fs, acc =>
    if acc.version.isSome then Except.error "A version was already specified."
    else process_fields fs { acc with version := some s }
  | FieldArg.generator s :: fs, acc =>
    if acc.generator.isSome then Except.error "A generator was already specified."
    else
      match parse_generator_field s with
      | Except.error e => Except.error e
      | Except.ok v => process_fields fs { acc with generator := some v }
  | FieldArg.extensions l :: fs, acc =>
    if acc.extensions.isSome then
      Except.error "The list of extensions were already specified."
    else process_fields fs { acc with extensions := some l }
  | FieldArg.unknown n :: _, _ =>
    Except.error ("Unknown field `" ++ n ++ "`")
  | FieldArg.noIdent :: _, _ =>
    Except.error "Expected a generator argument name, either: `api`, `profile`, `version`, `generator`, or `extensions`."

/-- The resolved selection of one generation request, after defaulting. -/

structure Config where
  ns : RegistryNs
  source : String
  profile : String
  version : String
  generator : String
  extensions : List String
deriving DecidableEq, Repr

/-- The comma-split of the invocation's token stream
(`tts.split(is_comma)`, lib.rs line 152): a slice split always yields at
least one subslice, so the empty invocation produces exactly one empty
group, which has no leading identifier; a nonempty invocation's groups are
its fields. -/
def invocation_groups : List FieldArg → List FieldArg
  | [] => [FieldArg.noIdent]
  | f :: fs => f :: fs

/-- `generate_bindings`: split the invocation into comma-separated groups,
process them, then fill unset fields with the documented defaults — api `gl`
(namespace `Gl`, source `GL_XML`), extensions `[]`, version `1.0`, generator
`static`, profile `core`.  A field error aborts the whole request with no
output; the empty invocation aborts on its one empty group. -/
def generate_bindings (fields : List FieldArg) : Except String Config :=
  match process_fields (invocation_groups fields) ⟨none, none, none, none, none⟩ with
  | Except.error e => Except.error e
  | Except.ok opts =>
    Except.ok
      { ns := (opts.api.getD (RegistryNs.Gl, "GL_XML")).1,
        source := (opts.api.getD (RegistryNs.Gl, "GL_XML")).2,
        profile := opts.profile.getD "core",
        version := opts.version.getD "1.0",
        generator := opts.generator.getD "static",
        extensions := opts.extensions.getD [] }

/-- The selection-field kind, for stating the at-most-once rule. -/

inductive FieldKind where
  | api
  | profile
  | version
  | generator
  | extensions
deriving DecidableEq, Repr

/-- Kind of a field argument; `unknown` fields have none. -/

def field_kind : FieldArg → Option FieldKind
  | FieldArg.api _ => some FieldKind.api
  | FieldArg.profile _ => some FieldKind.profile
  | FieldArg.version _ => some FieldKind.version
  | FieldArg.generator _ => some FieldKind.generator
  | FieldArg.extensions _ => some FieldKind.extensions
  | FieldArg.unknown _ => none
  | FieldArg.noIdent => none

/-- Whether the accumulator slot of a kind is already set. -/

def Options.slot_set (acc : Options) : FieldKind → Bool
  | FieldKind.api => acc.api.isSome
  | FieldKind.profile => acc.profile.isSome
  | FieldKind.version => acc.version.isSome
  | FieldKind.generator => acc.generator.isSome
  | FieldKind.extensions => acc.extensions.isSome

/-- Bool prefix test on character lists. -/

def has_prefix_list : List Char → List Char → Bool
  | _, [] => true
  | [], _ :: _ => false
  | a :: as, b :: bs => a == b && has_prefix_list as bs

/-- Bool substring test: does the needle occur contiguously in the haystack? -/

def contains_sub_list (n : List Char) : List Char → Bool
  | [] => n.isEmpty
  | c :: t => has_prefix_list (c :: t) n || contains_sub_list n t

/-- Substring test on strings (for: an error message mentions a value). -/

def str_contains_sub (hay needle : String) : Bool :=
  contains_sub_list needle.data hay.data

instance {e a : Type} [DecidableEq e] [DecidableEq a] : DecidableEq (Except e a) := fun x y =>
  match x, y with
  | Except.error u, Except.error v =>
    if h : u = v then Decidable.isTrue (by rw [h])
    else Decidable.isFalse (fun hc => by cases hc; exact h rfl)
  | Except.error _, Except.ok _ => Decidable.isFalse (fun hc => by cases hc)
  | Except.ok _, Except.error _ => Decidable.isFalse (fun hc => by cases hc)
  | Except.ok u, Except.ok v =>
    if h : u = v then Decidable.isTrue (by rw [h])
    else Decidable.isFalse (fun hc => by cases hc; exact h rfl)

/-! ## Theorems -/

/-! ### Properties of the deduplicating loop -/

theorem for_unseen_go_sublist (key : α → String) (seen : List String) (l : List α) :
    (for_unseen_go key seen l).Sublist l := by
  induction l generalizing seen with
  | nil => simp [for_unseen_go]
  | cons d ds ih =>
    by_cases h : key d ∈ seen
    · simp only [for_unseen_go, if_pos h]
      exact (ih (key d :: seen)).trans (List.sublist_cons_self d ds)
    · simp only [for_unseen_go, if_neg h]
      exact (ih (key d :: seen)).cons₂ d

theorem for_unseen_go_mem_spec (key : α → String) (seen : List String) (l : List α)
    (b : α) (hb : b ∈ for_unseen_go key seen l) :
    key b ∉ seen ∧ l.find? (fun a => key a == key b) = some b := by
  induction l generalizing seen with
  | nil => simp [for_unseen_go] at hb
  | cons d ds ih =>
    by_cases h : key d ∈ seen
    · simp only [for_unseen_go, if_pos h] at hb
      obtain ⟨hnot, hfind⟩ := ih (key d :: seen) hb
      have hne : key b ≠ key d := fun he => hnot (by simp [he])
      refine ⟨fun hc => hnot (by simp [hc]), ?_⟩
      rw [List.find?_cons_of_neg, hfind]
      simpa using fun he => hne he.symm
    · simp only [for_unseen_go, if_neg h, List.mem_cons] at hb
      rcases hb with rfl | hb
      · exact ⟨h, by rw [List.find?_cons_of_pos _ (by simp)]⟩
      · obtain ⟨hnot, hfind⟩ := ih (key d :: seen) hb
        have hne : key b ≠ key d := fun he => hnot (by simp [he])
        refine ⟨fun hc => hnot (by simp [hc]), ?_⟩
        rw [List.find?_cons_of_neg, hfind]
        simpa using fun he => hne he.symm

theorem for_unseen_go_nodup_keys (key : α → String) (seen : List String) (l : List α) :
    ((for_unseen_go key seen l).map key).Nodup := by
  induction l generalizing seen with
  | nil => simp [for_unseen_go]
  | cons d ds ih =>
    by_cases h : key d ∈ seen
    · simpa only [for_unseen_go, if_pos h] using ih (key d :: seen)
    · simp only [for_unseen_go, if_neg h, List.map_cons, List.nodup_cons]
      refine ⟨?_, ih (key d :: seen)⟩
      intro hmem
      obtain ⟨b, hb, hkb⟩ := List.mem_map.mp hmem
      exact (for_unseen_go_mem_spec key _ ds b hb).1 (by simp [hkb])

theorem for_unseen_go_covers (key : α → String) (seen : List String) (l : List α)
    (a : α) (ha : a ∈ l) :
    key a ∈ seen ∨ ∃ b ∈ for_unseen_go key seen l, key b = key a := by
  induction l generalizing seen with
  | nil => simp at ha
  | cons d ds ih =>
    rcases List.mem_cons.mp ha with rfl | ha'
    · by_cases h : key a ∈ seen
      · exact Or.inl h
      · refine Or.inr ⟨a, ?_, rfl⟩
        simp [for_unseen_go, if_neg h]
    · by_cases h : key d ∈ seen
      · simp only [for_unseen_go, if_pos h]
        rcases ih (key d :: seen) ha' with hmem | ⟨b, hb, hkb⟩
        · rcases List.mem_cons.mp hmem with he | hs
          · exact Or.inl (he ▸ h)
          · exact Or.inl hs
        · exact Or.inr ⟨b, hb, hkb⟩
      · simp only [for_unseen_go, if_neg h]
        rcases ih (key d :: seen) ha' with hmem | ⟨b, hb, hkb⟩
        · rcases List.mem_cons.mp hmem with he | hs
          · exact Or.inr ⟨d, List.mem_cons_self d _, he.symm⟩
          · exact Or.inl hs
        · exact Or.inr ⟨b, List.mem_cons_of_mem d hb, hkb⟩

/-- **C1.** For every raw `Registry`, the deduplicating iterations `for_enums`
and `for_cmds` (which drive all emission of enums and commands) produce no two
entries sharing an identifier; the output is a sublist of the input (relative
order preserved, entries only dropped); every kept entry is the first
occurrence of its identifier in document order; and every identifier of the
input survives (later duplicates are dropped silently, not reported). -/

theorem spec_c1 (r : Registry) :
    ((for_enums r).map Enum.ident).Nodup ∧
    ((for_cmds r).map (fun c => c.proto.ident)).Nodup ∧
    (for_enums r).Sublist r.enums ∧
    (for_cmds r).Sublist r.cmds ∧
    (∀ b ∈ for_enums r, r.enums.find? (fun a => a.ident == b.ident) = some b) ∧
    (∀ b ∈ for_cmds r, r.cmds.find? (fun a => a.proto.ident == b.proto.ident) = some b) ∧
    (∀ a ∈ r.enums, ∃ b ∈ for_enums r, b.ident = a.ident) ∧
    (∀ a ∈ r.cmds, ∃ b ∈ for_cmds r, b.proto.ident = a.proto.ident) := by
  refine ⟨for_unseen_go_nodup_keys _ [] _, for_unseen_go_nodup_keys _ [] _,
    for_unseen_go_sublist _ [] _, for_unseen_go_sublist _ [] _, ?_, ?_, ?_, ?_⟩
  · exact fun b hb => (for_unseen_go_mem_spec _ [] _ b hb).2
  · exact fun b hb => (for_unseen_go_mem_spec _ [] _ b hb).2
  · intro a ha
    rcases for_unseen_go_covers (fun e => e.ident) [] r.enums a ha with h | ⟨b, hb, hkb⟩
    · simp at h
    · exact ⟨b, hb, hkb⟩
  · intro a ha
    rcases for_unseen_go_covers (fun c => c.proto.ident) [] r.cmds a ha with h | ⟨b, hb, hkb⟩
    · simp at h
    · exact ⟨b, hb, hkb⟩

theorem spec_c1_witness :
    ((for_enums c1_reg).map Enum.ident).Nodup ∧
    c1_reg.enums.find?
      (fun a => a.ident == (Enum.mk "A" "1").ident) = some (Enum.mk "A" "1") ∧
    (∃ b ∈ for_cmds c1_reg, b.proto.ident = "glClear") := by
  have h := spec_c1 c1_reg
  refine ⟨h.1, ?_, ?_⟩
  · exact h.2.2.2.2.1 (Enum.mk "A" "1") (by decide)
  · exact h.2.2.2.2.2.2.2 ⟨⟨"glClear", "c_void"⟩, [], false⟩ (by decide)

/-- **C2.** For every command, all parameter-rendering modes —
`gen_param_list` with and without identifiers, `gen_param_ident_list`,
`gen_param_ty_list`, and the spec-modelled `gen_parameters` of the
struct generators — produce lists of the same length as the command's
parameter sequence, and the `i`-th rendered entry of each mode is derived
from the `i`-th declared parameter (identical relative order). -/

theorem spec_c2 (cmd : Cmd) :
    (gen_param_list_vec cmd true).length = cmd.params.length ∧
    (gen_param_list_vec cmd false).length = cmd.params.length ∧
    (gen_param_ident_list_vec cmd).length = cmd.params.length ∧
    (gen_param_ty_list_vec cmd).length = cmd.params.length ∧
    (∀ wi wt, (gen_parameters cmd wi wt).length = cmd.params.length) ∧
    (∀ i (h : i < cmd.params.length),
      (gen_param_list_vec cmd true).get ⟨i, by simpa [gen_param_list_vec] using h⟩
          = gen_binding (cmd.params.get ⟨i, h⟩) true ∧
      (gen_param_list_vec cmd false).get ⟨i, by simpa [gen_param_list_vec] using h⟩
          = gen_binding (cmd.params.get ⟨i, h⟩) false ∧
      (gen_param_ident_list_vec cmd).get ⟨i, by simpa [gen_param_ident_list_vec] using h⟩
          = gen_binding_ident (cmd.params.get ⟨i, h⟩) true ∧
      (gen_param_ty_list_vec cmd).get ⟨i, by simpa [gen_param_ty_list_vec] using h⟩
          = to_rust_ty (cmd.params.get ⟨i, h⟩).ty ∧
      (gen_parameters cmd true false).get ⟨i, by simpa [gen_parameters] using h⟩
          = gen_binding_ident (cmd.params.get ⟨i, h⟩) true) := by
  refine ⟨by simp [gen_param_list_vec], by simp [gen_param_list_vec],
    by simp [gen_param_ident_list_vec], by simp [gen_param_ty_list_vec],
    fun wi wt => by simp [gen_parameters], ?_⟩
  intro i h
  refine ⟨?_, ?_, ?_, ?_, ?_⟩ <;>
    simp [gen_param_list_vec, gen_param_ident_list_vec, gen_param_ty_list_vec,
      gen_parameters, List.getElem_map]

theorem spec_c2_witness :
    (gen_param_list_vec c2_cmd true).length = c2_cmd.params.length ∧
    (gen_param_ident_list_vec c2_cmd).get
        ⟨0, by simpa [gen_param_ident_list_vec] using (by decide : 0 < c2_cmd.params.length)⟩
      = gen_binding_ident (c2_cmd.params.get ⟨0, by decide⟩) true := by
  have h := spec_c2 c2_cmd
  exact ⟨h.1, (h.2.2.2.2.2 0 (by decide)).2.2.1⟩

/-- **C3, counterexample.** The claim "there is never a transition from
Loaded back to Unloaded" fails on the generated code: the per-command
`load_with` may be invoked again, and `FnPtr::new` with a failed lookup
resets the slot to the failing stub.  Concretely: from the reachable state in
which the `glClear` slot is Loaded (`is_loaded = true`), a second load step
whose resolver returns `None` yields a state with `is_loaded = false` and the
failing stub installed. -/

theorem spec_c3_counterexample :
    Reachable Ns.Gl c3_st1 ∧
    Step Ns.Gl c3_st1 c3_st2 ∧
    (c3_st1 "glClear").is_loaded = true ∧
    (c3_st2 "glClear").is_loaded = false ∧
    (c3_st2 "glClear").f = FnPtrFun.failing "glClear" ∧
    invoke c3_st2 "glClear" = InvokeResult.fails "glClear" :=
  ⟨Relation.ReflTransGen.single (Step.load c3_cmd (fun _ => some 1) initial_storage),
   Step.load c3_cmd (fun _ => none) c3_st1,
   by decide, by decide, by decide, by decide⟩

/-- **C3, amended.** Every reachable storage state has each slot in exactly
one of two states — Unloaded (`is_loaded = false` with the slot's own failing
stub installed, so invocation fails loudly) or Loaded (`is_loaded = true`
with a resolved address); the initial state is Unloaded everywhere; a load
step touches only the loaded command's slot (so the state is per-slot and a
partial load is observable through each command's `is_loaded` query); a slot
becomes Loaded only through a load of that command whose resolver lookup
succeeds; and — the amendment — a Loaded slot returns to Unloaded exactly
when the load operation is invoked again on that same slot and the resolver
lookup fails, which is the only reverse transition. -/

theorem spec_c3 (ns : Ns) :
    (∀ n, initial_storage n = { f := FnPtrFun.failing n, is_loaded := false }) ∧
    (∀ st, Reachable ns st → ∀ n,
      st n = { f := FnPtrFun.failing n, is_loaded := false } ∨
      ∃ a, st n = { f := FnPtrFun.ptr a, is_loaded := true }) ∧
    (∀ st, Reachable ns st → ∀ n,
      (st n).is_loaded = false → invoke st n = InvokeResult.fails n) ∧
    (∀ st cmd loadfn n, n ≠ cmd.proto.ident →
      fn_mod_load_with ns cmd loadfn st n = st n) ∧
    (∀ st cmd loadfn n, (st n).is_loaded = false →
      (fn_mod_load_with ns cmd loadfn st n).is_loaded = true →
      n = cmd.proto.ident ∧
      ∃ a, loadfn (gen_symbol_name ns cmd) = some a ∧
        (fn_mod_load_with ns cmd loadfn st n).f = FnPtrFun.ptr a) ∧
    (∀ st cmd loadfn n, (st n).is_loaded = true →
      (fn_mod_load_with ns cmd loadfn st n).is_loaded = false →
      n = cmd.proto.ident ∧ loadfn (gen_symbol_name ns cmd) = none ∧
        fn_mod_load_with ns cmd loadfn st n
          = { f := FnPtrFun.failing cmd.proto.ident, is_loaded := false }) := by
  have hslot : ∀ st cmd (loadfn : String → Option Nat) n, n ≠ cmd.proto.ident →
      fn_mod_load_with ns cmd loadfn st n = st n := by
    intro st cmd loadfn n hne
    simp [fn_mod_load_with, hne]
  have htwo : ∀ st, Reachable ns st → ∀ n,
      st n = { f := FnPtrFun.failing n, is_loaded := false } ∨
      ∃ a, st n = { f := FnPtrFun.ptr a, is_loaded := true } := by
    intro st hst
    induction hst with
    | refl => exact fun n => Or.inl rfl
    | tail hab hbc ih =>
      intro n
      cases hbc with
      | load cmd loadfn st2 =>
        by_cases hn : n = cmd.proto.ident
        · subst hn
          cases hload : loadfn (gen_symbol_name ns cmd) with
          | none => exact Or.inl (by simp [fn_mod_load_with, FnPtr.new, hload])
          | some a => exact Or.inr ⟨a, by simp [fn_mod_load_with, FnPtr.new, hload]⟩
        · rw [hslot _ cmd loadfn n hn]
          exact ih n
  refine ⟨fun n => rfl, htwo, ?_, hslot, ?_, ?_⟩
  · intro st hst n hun
    rcases htwo st hst n with h | ⟨a, h⟩
    · simp [invoke, h]
    · rw [h] at hun
      simp at hun
  · intro st cmd loadfn n hfalse htrue
    by_cases hn : n = cmd.proto.ident
    · subst hn
      cases hload : loadfn (gen_symbol_name ns cmd) with
      | none =>
        exfalso
        simp [fn_mod_load_with, FnPtr.new, hload] at htrue
      | some a =>
        exact ⟨rfl, a, rfl, by simp [fn_mod_load_with, FnPtr.new, hload]⟩
    · exfalso
      rw [hslot _ cmd loadfn n hn] at htrue
      rw [htrue] at hfalse
      simp at hfalse
  · intro st cmd loadfn n htrue hfalse
    by_cases hn : n = cmd.proto.ident
    · subst hn
      cases hload : loadfn (gen_symbol_name ns cmd) with
      | none =>
        exact ⟨rfl, rfl, by simp [fn_mod_load_with, FnPtr.new, hload]⟩
      | some a =>
        exfalso
        simp [fn_mod_load_with, FnPtr.new, hload] at hfalse
    · exfalso
      rw [hslot _ cmd loadfn n hn] at hfalse
      rw [hfalse] at htrue
      simp at htrue

theorem spec_c3_witness :
    initial_storage "glEnd" = { f := FnPtrFun.failing "glEnd", is_loaded := false } ∧
    (c3_st1 "glClear" = { f := FnPtrFun.failing "glClear", is_loaded := false } ∨
      ∃ a, c3_st1 "glClear" = { f := FnPtrFun.ptr a, is_loaded := true }) ∧
    fn_mod_load_with Ns.Gl c3_cmd (fun _ => some 1) initial_storage "glEnd"
      = initial_storage "glEnd" ∧
    invoke initial_storage "glEnd" = InvokeResult.fails "glEnd" := by
  have h := spec_c3 Ns.Gl
  refine ⟨h.1 "glEnd", ?_, ?_, ?_⟩
  · exact h.2.1 c3_st1
      (Relation.ReflTransGen.single (Step.load c3_cmd (fun _ => some 1) initial_storage))
      "glClear"
  · exact h.2.2.2.1 initial_storage c3_cmd (fun _ => some 1) "glEnd" (by decide)
  · exact h.2.2.1 initial_storage Relation.ReflTransGen.refl "glEnd" (by decide)

/-- **C4.** When the caller-supplied resolver returns no address for a
command's symbol, the per-command load operation still completes (it is a
total state transformation, not an error): the slot it leaves behind holds
the loud-failure stub with `is_loaded = false`, and only invoking that
function produces the failure. -/

theorem spec_c4 (ns : Ns) (cmd : Cmd) (loadfn : String → Option Nat)
    (st : GlStorage) (h : loadfn (gen_symbol_name ns cmd) = none) :
    fn_mod_load_with ns cmd loadfn st cmd.proto.ident
      = { f := FnPtrFun.failing cmd.proto.ident, is_loaded := false } ∧
    (fn_mod_load_with ns cmd loadfn st cmd.proto.ident).is_loaded = false ∧
    invoke (fn_mod_load_with ns cmd loadfn st) cmd.proto.ident
      = InvokeResult.fails cmd.proto.ident := by
  refine ⟨?_, ?_, ?_⟩ <;> simp [fn_mod_load_with, FnPtr.new, invoke, h]

theorem spec_c4_witness :
    fn_mod_load_with Ns.Gl c3_cmd (fun _ => none) initial_storage "glClear"
      = { f := FnPtrFun.failing "glClear", is_loaded := false } ∧
    invoke (fn_mod_load_with Ns.Gl c3_cmd (fun _ => none) initial_storage) "glClear"
      = InvokeResult.fails "glClear" := by
  have h := spec_c4 Ns.Gl c3_cmd (fun _ => none) initial_storage rfl
  exact ⟨h.1, h.2.2⟩

/-- **C5.** Whenever the escaped identifier of an enum is `"TRUE"` or
`"FALSE"`, `write_enum` types the emitted constant as `GLboolean` whatever
type the caller supplied, and the emitted line carries that boolean type in
its type position. -/

theorem spec_c5 (enm : Enum) (ty : String)
    (h : write_enum_escaped_ident enm = "TRUE" ∨ write_enum_escaped_ident enm = "FALSE") :
    write_enum_ty enm ty = "GLboolean" ∧
    write_enum_line enm ty =
      "pub static " ++ write_enum_escaped_ident enm ++ ": " ++ "GLboolean"
        ++ " = " ++ enm.value ++ ";" := by
  have hty : write_enum_ty enm ty = "GLboolean" := by
    simp [write_enum_ty, h]
  exact ⟨hty, by rw [write_enum_line, hty]⟩

/-- The scenario of the claim: enum `{identifier: "TRUE", value: "1"}`
rendered with caller type `"GLenum"` comes out typed `GLboolean`. -/

theorem spec_c5_witness :
    write_enum_ty (Enum.mk "TRUE" "1") "GLenum" = "GLboolean" ∧
    write_enum_line (Enum.mk "TRUE" "1") "GLenum" = "pub static TRUE: GLboolean = 1;" := by
  have h := spec_c5 (Enum.mk "TRUE" "1") "GLenum" (Or.inl (by decide))
  refine ⟨h.1, ?_⟩
  rw [h.2]
  decide

/-- **C6.** For every namespace and command, the constructed external-linkage
symbol name is the namespace prefix (`"gl"` / `"glx"` / `"wgl"`) concatenated
with the command identifier; the `fn_mod!` item emitted by `write_fn_mods`
carries exactly that name as the resolver lookup key (and the per-command
load consults the resolver only at that key); and the `link_name` of the
foreign declaration emitted by the static-struct generator is the same
constructed name. -/

theorem spec_c6 (ns : Ns) (cmd : Cmd) :
    (gen_symbol_name Ns.Gl cmd = "gl" ++ cmd.proto.ident ∧
     gen_symbol_name Ns.Glx cmd = "glx" ++ cmd.proto.ident ∧
     gen_symbol_name Ns.Wgl cmd = "wgl" ++ cmd.proto.ident) ∧
    (write_fn_mods_item ns cmd).sym = gen_symbol_name ns cmd ∧
    (∀ f g : String → Option Nat, ∀ st,
      f (gen_symbol_name ns cmd) = g (gen_symbol_name ns cmd) →
      fn_mod_load_with ns cmd f st = fn_mod_load_with ns cmd g st) ∧
    (write_fns_item ns cmd).link_name = gen_symbol_name ns cmd := by
  refine ⟨⟨rfl, rfl, rfl⟩, rfl, ?_, ?_⟩
  · intro f g st hfg
    funext m
    simp only [fn_mod_load_with, hfg]
  · cases ns <;> rfl

theorem spec_c6_witness :
    gen_symbol_name Ns.Gl c6_cmd = "gl" ++ c6_cmd.proto.ident ∧
    (write_fns_item Ns.Gl c6_cmd).link_name = gen_symbol_name Ns.Gl c6_cmd ∧
    fn_mod_load_with Ns.Gl c6_cmd (fun s => if s = "glClear" then some 7 else none)
        initial_storage
      = fn_mod_load_with Ns.Gl c6_cmd (fun _ => some 7) initial_storage := by
  have h := spec_c6 Ns.Gl c6_cmd
  exact ⟨h.1.1, h.2.2.2,
    h.2.2.1 (fun s => if s = "glClear" then some 7 else none) (fun _ => some 7)
      initial_storage (by decide)⟩

/-- **C7.** A parameter whose identifier is the reserved word `"type"`
renders with the disambiguating suffix as `"type_"` in every mode that
renders identifiers (typed-and-named and named-only, both via
`gen_binding_ident` with `use_idents` set and via the spec-modelled
`gen_parameters` of the struct generators); the placeholder mode renders it
as `"_"` and the typed-only mode carries no identifier at all, so no mode
ever emits the bare reserved word. -/

theorem spec_c7 (cmd : Cmd) (i : Nat) (h : i < cmd.params.length)
    (hres : (cmd.params.get ⟨i, h⟩).ident = "type") :
    gen_binding_ident (cmd.params.get ⟨i, h⟩) true = "type_" ∧
    (gen_param_ident_list_vec cmd).get ⟨i, by simpa [gen_param_ident_list_vec] using h⟩
      = "type_" ∧
    (gen_param_list_vec cmd true).get ⟨i, by simpa [gen_param_list_vec] using h⟩
      = "type_" ++ ": " ++ to_rust_ty (cmd.params.get ⟨i, h⟩).ty ∧
    (gen_parameters cmd true true).get ⟨i, by simpa [gen_parameters] using h⟩
      = "type_" ++ ": " ++ to_rust_ty (cmd.params.get ⟨i, h⟩).ty ∧
    (gen_parameters cmd true false).get ⟨i, by simpa [gen_parameters] using h⟩
      = "type_" ∧
    gen_binding_ident (cmd.params.get ⟨i, h⟩) false = "_" ∧
    (gen_param_ty_list_vec cmd).get ⟨i, by simpa [gen_param_ty_list_vec] using h⟩
      = to_rust_ty (cmd.params.get ⟨i, h⟩).ty := by
  have hid : gen_binding_ident (cmd.params.get ⟨i, h⟩) true = "type_" := by
    rcases hp : cmd.params.get ⟨i, h⟩ with ⟨pid, pty⟩
    rw [hp] at hres
    simp only [] at hres
    rw [gen_binding_ident]
    simp only [hp] at *
    simp [hres]
  refine ⟨hid, ?_, ?_, ?_, ?_, rfl, ?_⟩ <;>
    simp [gen_param_ident_list_vec, gen_param_list_vec, gen_param_ty_list_vec,
      gen_parameters, gen_binding, List.getElem_map, List.get_eq_getElem, hid] <;>
    simp [List.get_eq_getElem] at hid <;> simp [hid]

theorem spec_c7_witness :
    gen_binding_ident (c7_cmd.params.get ⟨1, by decide⟩) true = "type_" ∧
    (gen_param_ident_list_vec c7_cmd).get
        ⟨1, by simpa [gen_param_ident_list_vec] using (by decide : 1 < c7_cmd.params.length)⟩
      = "type_" := by
  have h := spec_c7 c7_cmd 1 (by decide) (by decide)
  exact ⟨h.1, h.2.1⟩

/-- **C9.** In the static-struct style, `load_with` performs no real loading:
for every caller-supplied resolver it returns the marker struct value and
consults the resolver at no symbol (its result is the same for any two
resolvers); the marker type carries no state (all its values are equal); and
every generated method's body delegates to the foreign function of the same
name declared by `write_fns` — an externally linked symbol whose `link_name`
is the constructed symbol name — rather than to any stored state. -/

theorem spec_c9 (cmd : Cmd) :
    (∀ loadfn, static_struct_load_with loadfn = (StructVal.mk, [])) ∧
    (∀ f g, static_struct_load_with f = static_struct_load_with g) ∧
    (∀ a b : StructVal, a = b) ∧
    (∀ api, (write_impl_method cmd).body_callee = (write_fns_item api cmd).name ∧
      (write_fns_item api cmd).link_name = mod_gen_symbol_name api cmd.proto.ident) ∧
    (write_impl_method cmd).body_args = gen_parameters cmd true false := by
  refine ⟨fun _ => rfl, fun _ _ => rfl, ?_, fun api => ⟨rfl, rfl⟩, rfl⟩
  intro a b
  cases a
  cases b
  rfl

theorem spec_c9_witness :
    static_struct_load_with (fun _ => some 3) = (StructVal.mk, []) ∧
    static_struct_load_with (fun _ => some 3) = static_struct_load_with (fun _ => none) ∧
    (write_impl_method c6_cmd).body_callee = (write_fns_item Ns.Gl c6_cmd).name := by
  have h := spec_c9 c6_cmd
  exact ⟨h.1 (fun _ => some 3), h.2.1 (fun _ => some 3) (fun _ => none),
    (h.2.2.2.1 Ns.Gl).1⟩

theorem has_prefix_list_nil (h : List Char) : has_prefix_list h [] = true := by
  cases h <;> rfl

theorem has_prefix_list_append (n b : List Char) :
    has_prefix_list (n ++ b) n = true := by
  induction n with
  | nil => simp [has_prefix_list_nil]
  | cons c cs ih => simp [has_prefix_list, ih]

theorem contains_sub_list_nil (hay : List Char) :
    contains_sub_list [] hay = true := by
  cases hay with
  | nil => rfl
  | cons c t => simp [contains_sub_list, has_prefix_list]

theorem contains_sub_list_self_append (n b : List Char) :
    contains_sub_list n (n ++ b) = true := by
  cases n with
  | nil => exact contains_sub_list_nil b
  | cons m ms =>
    simp only [List.cons_append, contains_sub_list]
    simp [has_prefix_list, has_prefix_list_append]

theorem contains_sub_list_append_left (n t : List Char) (a : List Char)
    (h : contains_sub_list n t = true) :
    contains_sub_list n (a ++ t) = true := by
  induction a with
  | nil => simpa using h
  | cons c cs ih => simp [contains_sub_list, ih]

theorem str_contains_sub_surround (a s b : String) :
    str_contains_sub (a ++ s ++ b) s = true := by
  have hl : (a ++ s ++ b).data = a.data ++ (s.data ++ b.data) := by
    simp [String.data_append]
  rw [str_contains_sub, hl]
  exact contains_sub_list_append_left _ _ _
    (contains_sub_list_self_append s.data b.data)

theorem process_fields_ok_spec (fs : List FieldArg) :
    ∀ acc c, process_fields fs acc = Except.ok c →
    ∀ k, acc.slot_set k = true → ∀ f ∈ fs, field_kind f ≠ some k := by
  induction fs with
  | nil => intro acc c _ k _ f hf; simp at hf
  | cons f fs ih =>
    intro acc c hok k hset g hg hkind
    cases f with
    | api s =>
      simp only [process_fields] at hok
      by_cases hA : acc.api.isSome
      · simp [hA] at hok
      · simp only [hA, Bool.false_eq_true, if_false] at hok
        cases hp : parse_api_field s with
        | error e => rw [hp] at hok; simp at hok
        | ok v =>
          rw [hp] at hok
          simp only [] at hok
          rcases List.mem_cons.mp hg with rfl | hg'
          · rw [field_kind] at hkind
            have hk : k = FieldKind.api := by
              injection hkind with h
              exact h.symm
            subst hk
            rw [Options.slot_set] at hset
            exact hA hset
          · refine ih _ c hok k ?_ g hg' hkind
            cases k <;> simp_all [Options.slot_set]
    | profile s =>
      simp only [process_fields] at hok
      by_cases hA : acc.profile.isSome
      · simp [hA] at hok
      · simp only [hA, Bool.false_eq_true, if_false] at hok
        cases hp : parse_profile_field s with
        | error e => rw [hp] at hok; simp at hok
        | ok v =>
          rw [hp] at hok
          simp only [] at hok
          rcases List.mem_cons.mp hg with rfl | hg'
          · rw [field_kind] at hkind
            have hk : k = FieldKind.profile := by
              injection hkind with h
              exact h.symm
            subst hk
            rw [Options.slot_set] at hset
            exact hA hset
          · refine ih _ c hok k ?_ g hg' hkind
            cases k <;> simp_all [Options.slot_set]
    | version s =>
      simp only [process_fields] at hok
      by_cases hA : acc.version.isSome
      · simp [hA] at hok
      · simp only [hA, Bool.false_eq_true, if_false] at hok
        rcases List.mem_cons.mp hg with rfl | hg'
        · rw [field_kind] at hkind
          have hk : k = FieldKind.version := by
            injection hkind with h
            exact h.symm
          subst hk
          rw [Options.slot_set] at hset
          exact hA hset
        · refine ih _ c hok k ?_ g hg' hkind
          cases k <;> simp_all [Options.slot_set]
    | generator s =>
      simp only [process_fields] at hok
      by_cases hA : acc.generator.isSome
      · simp [hA] at hok
      · simp only [hA, Bool.false_eq_true, if_false] at hok
        cases hp : parse_generator_field s with
        | error e => rw [hp] at hok; simp at hok
        | ok v =>
          rw [hp] at hok
          simp only [] at hok
          rcases List.mem_cons.mp hg with rfl | hg'
          · rw [field_kind] at hkind
            have hk : k = FieldKind.generator := by
              injection hkind with h
              exact h.symm
            subst hk
            rw [Options.slot_set] at hset
            exact hA hset
          · refine ih _ c hok k ?_ g hg' hkind
            cases k <;> simp_all [Options.slot_set]
    | extensions l =>
      simp only [process_fields] at hok
      by_cases hA : acc.extensions.isSome
      · simp [hA] at hok
      · simp only [hA, Bool.false_eq_true, if_false] at hok
        rcases List.mem_cons.mp hg with rfl | hg'
        · rw [field_kind] at hkind
          have hk : k = FieldKind.extensions := by
            injection hkind with h
            exact h.symm
          subst hk
          rw [Options.slot_set] at hset
          exact hA hset
        · refine ih _ c hok k ?_ g hg' hkind
          cases k <;> simp_all [Options.slot_set]
    | unknown n =>
      simp only [process_fields] at hok
      simp at hok
    | noIdent =>
      simp only [process_fields] at hok
      simp at hok

theorem process_fields_dup (fs : List FieldArg) :
    ∀ acc c k, 2 ≤ fs.countP (fun f => field_kind f == some k) →
    process_fields fs acc ≠ Except.ok c := by
  induction fs with
  | nil => intro acc c k h; simp [List.countP_nil] at h
  | cons f fs ih =>
    intro acc c k hcount hok
    by_cases hf : field_kind f = some k
    · have hex : ∃ g ∈ fs, field_kind g = some k := by
        have h1 : 0 < fs.countP (fun g => field_kind g == some k) := by
          rw [List.countP_cons] at hcount
          simp only [hf, beq_self_eq_true, if_pos] at hcount
          omega
        obtain ⟨g, hg, hkg⟩ := List.countP_pos_iff.mp h1
        exact ⟨g, hg, by simpa using hkg⟩
      obtain ⟨g, hg, hkg⟩ := hex
      cases f with
      | api s =>
        have hk : k = FieldKind.api := by
          rw [field_kind] at hf
          injection hf with h
          exact h.symm
        subst hk
        simp only [process_fields] at hok
        by_cases hA : acc.api.isSome
        · simp [hA] at hok
        · simp only [hA, Bool.false_eq_true, if_false] at hok
          cases hp : parse_api_field s with
          | error e => rw [hp] at hok; simp at hok
          | ok v =>
            rw [hp] at hok
            exact process_fields_ok_spec fs _ c hok FieldKind.api
              (by simp [Options.slot_set]) g hg hkg
      | profile s =>
        have hk : k = FieldKind.profile := by
          rw [field_kind] at hf
          injection hf with h
          exact h.symm
        subst hk
        simp only [process_fields] at hok
        by_cases hA : acc.profile.isSome
        · simp [hA] at hok
        · simp only [hA, Bool.false_eq_true, if_false] at hok
          cases hp : parse_profile_field s with
          | error e => rw [hp] at hok; simp at hok
          | ok v =>
            rw [hp] at hok
            exact process_fields_ok_spec fs _ c hok FieldKind.profile
              (by simp [Options.slot_set]) g hg hkg
      | version s =>
        have hk : k = FieldKind.version := by
          rw [field_kind] at hf
          injection hf with h
          exact h.symm
        subst hk
        simp only [process_fields] at hok
        by_cases hA : acc.version.isSome
        · simp [hA] at hok
        · simp only [hA, Bool.false_eq_true, if_false] at hok
          exact process_fields_ok_spec fs _ c hok FieldKind.version
            (by simp [Options.slot_set]) g hg hkg
      | generator s =>
        have hk : k = FieldKind.generator := by
          rw [field_kind] at hf
          injection hf with h
          exact h.symm
        subst hk
        simp only [process_fields] at hok
        by_cases hA : acc.generator.isSome
        · simp [hA] at hok
        · simp only [hA, Bool.false_eq_true, if_false] at hok
          cases hp : parse_generator_field s with
          | error e => rw [hp] at hok; simp at hok
          | ok v =>
            rw [hp] at hok
            exact process_fields_ok_spec fs _ c hok FieldKind.generator
              (by simp [Options.slot_set]) g hg hkg
      | extensions l =>
        have hk : k = FieldKind.extensions := by
          rw [field_kind] at hf
          injection hf with h
          exact h.symm
        subst hk
        simp only [process_fields] at hok
        by_cases hA : acc.extensions.isSome
        · simp [hA] at hok
        · simp only [hA, Bool.false_eq_true, if_false] at hok
          exact process_fields_ok_spec fs _ c hok FieldKind.extensions
            (by simp [Options.slot_set]) g hg hkg
      | unknown n =>
        rw [field_kind] at hf
        exact Option.noConfusion hf
      | noIdent =>
        rw [field_kind] at hf
        exact Option.noConfusion hf
    · have hcount' : 2 ≤ fs.countP (fun g => field_kind g == some k) := by
        rw [List.countP_cons] at hcount
        have : (field_kind f == some k) = false := by simpa using hf
        simp only [this, Bool.false_eq_true, if_false] at hcount
        omega
      cases f with
      | api s =>
        simp only [process_fields] at hok
        by_cases hA : acc.api.isSome
        · simp [hA] at hok
        · simp only [hA, Bool.false_eq_true, if_false] at hok
          cases hp : parse_api_field s with
          | error e => rw [hp] at hok; simp at hok
          | ok v =>
            rw [hp] at hok
            exact ih _ c k hcount' hok
      | profile s =>
        simp only [process_fields] at hok
        by_cases hA : acc.profile.isSome
        · simp [hA] at hok
        · simp only [hA, Bool.false_eq_true, if_false] at hok
          cases hp : parse_profile_field s with
          | error e => rw [hp] at hok; simp at hok
          | ok v =>
            rw [hp] at hok
            exact ih _ c k hcount' hok
      | version s =>
        simp only [process_fields] at hok
        by_cases hA : acc.version.isSome
        · simp [hA] at hok
        · simp only [hA, Bool.false_eq_true, if_false] at hok
          exact ih _ c k hcount' hok
      | generator s =>
        simp only [process_fields] at hok
        by_cases hA : acc.generator.isSome
        · simp [hA] at hok
        · simp only [hA, Bool.false_eq_true, if_false] at hok
          cases hp : parse_generator_field s with
          | error e => rw [hp] at hok; simp at hok
          | ok v =>
            rw [hp] at hok
            exact ih _ c k hcount' hok
      | extensions l =>
        simp only [process_fields] at hok
        by_cases hA : acc.extensions.isSome
        · simp [hA] at hok
        · simp only [hA, Bool.false_eq_true, if_false] at hok
          exact ih _ c k hcount' hok
      | unknown n =>
        simp only [process_fields] at hok
        simp at hok
      | noIdent =>
        simp only [process_fields] at hok
        simp at hok

theorem process_fields_preserve (fs : List FieldArg) :
    ∀ acc c, process_fields fs acc = Except.ok c →
    ((∀ s, FieldArg.api s ∉ fs) → c.api = acc.api) ∧
    ((∀ s, FieldArg.profile s ∉ fs) → c.profile = acc.profile) ∧
    ((∀ s, FieldArg.version s ∉ fs) → c.version = acc.version) ∧
    ((∀ s, FieldArg.generator s ∉ fs) → c.generator = acc.generator) ∧
    ((∀ l, FieldArg.extensions l ∉ fs) → c.extensions = acc.extensions) := by
  induction fs with
  | nil =>
    intro acc c hok
    simp only [process_fields, Except.ok.injEq] at hok
    subst hok
    exact ⟨fun _ => rfl, fun _ => rfl, fun _ => rfl, fun _ => rfl, fun _ => rfl⟩
  | cons f fs ih =>
    intro acc c hok
    cases f with
    | api s =>
      simp only [process_fields] at hok
      by_cases hA : acc.api.isSome
      · simp [hA] at hok
      · simp only [hA, Bool.false_eq_true, if_false] at hok
        cases hp : parse_api_field s with
        | error e => rw [hp] at hok; simp at hok
        | ok v =>
          rw [hp] at hok
          obtain ⟨h1, h2, h3, h4, h5⟩ := ih _ c hok
          refine ⟨?_, ?_, ?_, ?_, ?_⟩
          · intro hno
            exact absurd (List.mem_cons_self (FieldArg.api s) fs) (hno s)
          · intro hno
            exact h2 (fun x hx => hno x (List.mem_cons_of_mem _ hx))
          · intro hno
            exact h3 (fun x hx => hno x (List.mem_cons_of_mem _ hx))
          · intro hno
            exact h4 (fun x hx => hno x (List.mem_cons_of_mem _ hx))
          · intro hno
            exact h5 (fun x hx => hno x (List.mem_cons_of_mem _ hx))
    | profile s =>
      simp only [process_fields] at hok
      by_cases hA : acc.profile.isSome
      · simp [hA] at hok
      · simp only [hA, Bool.false_eq_true, if_false] at hok
        cases hp : parse_profile_field s with
        | error e => rw [hp] at hok; simp at hok
        | ok v =>
          rw [hp] at hok
          obtain ⟨h1, h2, h3, h4, h5⟩ := ih _ c hok
          refine ⟨?_, ?_, ?_, ?_, ?_⟩
          · intro hno
            exact h1 (fun x hx => hno x (List.mem_cons_of_mem _ hx))
          · intro hno
            exact absurd (List.mem_cons_self (FieldArg.profile s) fs) (hno s)
          · intro hno
            exact h3 (fun x hx => hno x (List.mem_cons_of_mem _ hx))
          · intro hno
            exact h4 (fun x hx => hno x (List.mem_cons_of_mem _ hx))
          · intro hno
            exact h5 (fun x hx => hno x (List.mem_cons_of_mem _ hx))
    | version s =>
      simp only [process_fields] at hok
      by_cases hA : acc.version.isSome
      · simp [hA] at hok
      · simp only [hA, Bool.false_eq_true, if_false] at hok
        obtain ⟨h1, h2, h3, h4, h5⟩ := ih _ c hok
        refine ⟨?_, ?_, ?_, ?_, ?_⟩
        · intro hno
          exact h1 (fun x hx => hno x (List.mem_cons_of_mem _ hx))
        · intro hno
          exact h2 (fun x hx => hno x (List.mem_cons_of_mem _ hx))
        · intro hno
          exact absurd (List.mem_cons_self (FieldArg.version s) fs) (hno s)
        · intro hno
          exact h4 (fun x hx => hno x (List.mem_cons_of_mem _ hx))
        · intro hno
          exact h5 (fun x hx => hno x (List.mem_cons_of_mem _ hx))
    | generator s =>
      simp only [process_fields] at hok
      by_cases hA : acc.generator.isSome
      · simp [hA] at hok
      · simp only [hA, Bool.false_eq_true, if_false] at hok
        cases hp : parse_generator_field s with
        | error e => rw [hp] at hok; simp at hok
        | ok v =>
          rw [hp] at hok
          obtain ⟨h1, h2, h3, h4, h5⟩ := ih _ c hok
          refine ⟨?_, ?_, ?_, ?_, ?_⟩
          · intro hno
            exact h1 (fun x hx => hno x (List.mem_cons_of_mem _ hx))
          · intro hno
            exact h2 (fun x hx => hno x (List.mem_cons_of_mem _ hx))
          · intro hno
            exact h3 (fun x hx => hno x (List.mem_cons_of_mem _ hx))
          · intro hno
            exact absurd (List.mem_cons_self (FieldArg.generator s) fs) (hno s)
          · intro hno
            exact h5 (fun x hx => hno x (List.mem_cons_of_mem _ hx))
    | extensions l =>
      simp only [process_fields] at hok
      by_cases hA : acc.extensions.isSome
      · simp [hA] at hok
      · simp only [hA, Bool.false_eq_true, if_false] at hok
        obtain ⟨h1, h2, h3, h4, h5⟩ := ih _ c hok
        refine ⟨?_, ?_, ?_, ?_, ?_⟩
        · intro hno
          exact h1 (fun x hx => hno x (List.mem_cons_of_mem _ hx))
        · intro hno
          exact h2 (fun x hx => hno x (List.mem_cons_of_mem _ hx))
        · intro hno
          exact h3 (fun x hx => hno x (List.mem_cons_of_mem _ hx))
        · intro hno
          exact h4 (fun x hx => hno x (List.mem_cons_of_mem _ hx))
        · intro hno
          exact absurd (List.mem_cons_self (FieldArg.extensions l) fs) (hno l)
    | unknown n =>
      simp only [process_fields] at hok
      simp at hok
    | noIdent =>
      simp only [process_fields] at hok
      simp at hok

/-- **C8, counterexample.** The claim says the error for an unrecognized
selection value reports "the offending value and the set of accepted
values".  The emitted messages (`Unknown API "foo"`, `Unknown profile
"foo"`, `Unknown generator "foo"`) carry the offending value only: none of
the accepted values occurs anywhere in the message text.  The request still
aborts with no output. -/

theorem spec_c8_counterexample :
    parse_api_field "foo" = Except.error "Unknown API \"foo\"" ∧
    str_contains_sub "Unknown API \"foo\"" "gl" = false ∧
    str_contains_sub "Unknown API \"foo\"" "glx" = false ∧
    str_contains_sub "Unknown API \"foo\"" "wgl" = false ∧
    str_contains_sub "Unknown API \"foo\"" "egl" = false ∧
    str_contains_sub "Unknown API \"foo\"" "gles1" = false ∧
    str_contains_sub "Unknown API \"foo\"" "gles2" = false ∧
    parse_profile_field "foo" = Except.error "Unknown profile \"foo\"" ∧
    str_contains_sub "Unknown profile \"foo\"" "core" = false ∧
    str_contains_sub "Unknown profile \"foo\"" "compatibility" = false ∧
    parse_generator_field "foo" = Except.error "Unknown generator \"foo\"" ∧
    str_contains_sub "Unknown generator \"foo\"" "static" = false ∧
    str_contains_sub "Unknown generator \"foo\"" "global" = false ∧
    str_contains_sub "Unknown generator \"foo\"" "struct" = false ∧
    generate_bindings [FieldArg.api "foo"] = Except.error "Unknown API \"foo\"" := by
  decide

/-- **C8, amended.** Supplying an unrecognized API, profile, or
generator-style name in the selection input is fatal: the request aborts
with an error that reports the offending value (the value occurs verbatim in
the message) — though not the set of accepted values — and no generated
source is produced. -/

theorem spec_c8 (s : String) :
    (s ∉ ["gl", "glx", "wgl", "egl", "gles1", "gles2"] →
      parse_api_field s = Except.error ("Unknown API \"" ++ s ++ "\"") ∧
      str_contains_sub ("Unknown API \"" ++ s ++ "\"") s = true ∧
      ∀ fs c, generate_bindings (FieldArg.api s :: fs) ≠ Except.ok c) ∧
    (s ∉ ["core", "compatibility"] →
      parse_profile_field s = Except.error ("Unknown profile \"" ++ s ++ "\"") ∧
      str_contains_sub ("Unknown profile \"" ++ s ++ "\"") s = true ∧
      ∀ fs c, generate_bindings (FieldArg.profile s :: fs) ≠ Except.ok c) ∧
    (s ∉ generator_names →
      parse_generator_field s = Except.error ("Unknown generator \"" ++ s ++ "\"") ∧
      str_contains_sub ("Unknown generator \"" ++ s ++ "\"") s = true ∧
      ∀ fs c, generate_bindings (FieldArg.generator s :: fs) ≠ Except.ok c) := by
  refine ⟨?_, ?_, ?_⟩
  · intro h
    have h1 : s ≠ "gl" := fun he => h (by simp [he])
    have h2 : s ≠ "glx" := fun he => h (by simp [he])
    have h3 : s ≠ "wgl" := fun he => h (by simp [he])
    have h4 : s ≠ "egl" := fun he => h (by simp [he])
    have h5 : s ≠ "gles1" := fun he => h (by simp [he])
    have h6 : s ≠ "gles2" := fun he => h (by simp [he])
    have hmsg : parse_api_field s = Except.error ("Unknown API \"" ++ s ++ "\"") := by
      simp [parse_api_field, h1, h2, h3, h4, h5, h6]
    refine ⟨hmsg, str_contains_sub_surround _ s _, ?_⟩
    intro fs c hok
    have hpf : process_fields (FieldArg.api s :: fs)
        (Options.mk none none none none none)
        = Except.error ("Unknown API \"" ++ s ++ "\"") := by
      simp only [process_fields]
      simp [hmsg]
    unfold generate_bindings at hok
    simp only [invocation_groups] at hok
    rw [hpf] at hok
    simp at hok
  · intro h
    have h1 : s ≠ "core" := fun he => h (by simp [he])
    have h2 : s ≠ "compatibility" := fun he => h (by simp [he])
    have hmsg : parse_profile_field s
        = Except.error ("Unknown profile \"" ++ s ++ "\"") := by
      simp [parse_profile_field, h1, h2]
    refine ⟨hmsg, str_contains_sub_surround _ s _, ?_⟩
    intro fs c hok
    have hpf : process_fields (FieldArg.profile s :: fs)
        (Options.mk none none none none none)
        = Except.error ("Unknown profile \"" ++ s ++ "\"") := by
      simp only [process_fields]
      simp [hmsg]
    unfold generate_bindings at hok
    simp only [invocation_groups] at hok
    rw [hpf] at hok
    simp at hok
  · intro h
    have hmsg : parse_generator_field s
        = Except.error ("Unknown generator \"" ++ s ++ "\"") := by
      simp [parse_generator_field, h]
    refine ⟨hmsg, str_contains_sub_surround _ s _, ?_⟩
    intro fs c hok
    have hpf : process_fields (FieldArg.generator s :: fs)
        (Options.mk none none none none none)
        = Except.error ("Unknown generator \"" ++ s ++ "\"") := by
      simp only [process_fields]
      simp [hmsg]
    unfold generate_bindings at hok
    simp only [invocation_groups] at hok
    rw [hpf] at hok
    simp at hok

theorem spec_c8_witness :
    parse_api_field "foo" = Except.error ("Unknown API \"" ++ "foo" ++ "\"") ∧
    str_contains_sub ("Unknown API \"" ++ "foo" ++ "\"") "foo" = true ∧
    generate_bindings [FieldArg.generator "foo"]
      ≠ Except.ok (Config.mk RegistryNs.Gl "GL_XML" "core" "1.0" "static" []) := by
  have h := spec_c8 "foo"
  exact ⟨(h.1 (by decide)).1, (h.1 (by decide)).2.1,
    (h.2.2 (by decide)).2.2 [] (Config.mk RegistryNs.Gl "GL_XML" "core" "1.0" "static" [])⟩

/-- **C10.** In the macro entry point, specifying the same selection field
(`api`, `profile`, `version`, `generator`, or `extensions`) more than once in
a single invocation is fatal — no configuration is produced.  The empty
invocation is not a successful all-defaults request: its comma-split yields
one empty group, which aborts with the `Expected a generator argument name`
error.  A minimal invocation naming one field shows the defaults of the
others concretely (api `gl` / `GL_XML`, profile `core`, version `1.0`,
generator `static`, extensions empty), and in any successful request each
field supplied zero times takes its default value. -/
theorem spec_c10 :
    (∀ fields k c, 2 ≤ fields.countP (fun f => field_kind f == some k) →
      generate_bindings fields ≠ Except.ok c) ∧
    generate_bindings [] = Except.error
      "Expected a generator argument name, either: `api`, `profile`, `version`, `generator`, or `extensions`." ∧
    generate_bindings [FieldArg.api "gl"] =
      Except.ok (Config.mk RegistryNs.Gl "GL_XML" "core" "1.0" "static" []) ∧
    (∀ fields c, generate_bindings fields = Except.ok c →
      ((∀ s, FieldArg.api s ∉ fields) →
        c.ns = RegistryNs.Gl ∧ c.source = "GL_XML") ∧
      ((∀ s, FieldArg.profile s ∉ fields) → c.profile = "core") ∧
      ((∀ s, FieldArg.version s ∉ fields) → c.version = "1.0") ∧
      ((∀ s, FieldArg.generator s ∉ fields) → c.generator = "static") ∧
      ((∀ l, FieldArg.extensions l ∉ fields) → c.extensions = [])) := by
  refine ⟨?_, rfl, rfl, ?_⟩
  · intro fields k c hcount hok
    cases fields with
    | nil => simp [List.countP_nil] at hcount
    | cons f fs =>
      unfold generate_bindings at hok
      simp only [invocation_groups] at hok
      cases hpf : process_fields (f :: fs) (Options.mk none none none none none) with
      | error e => rw [hpf] at hok; simp at hok
      | ok opts => exact process_fields_dup (f :: fs) _ opts k hcount hpf
  · intro fields c hok
    cases fields with
    | nil =>
      unfold generate_bindings at hok
      simp [invocation_groups, process_fields] at hok
    | cons f fs =>
      unfold generate_bindings at hok
      simp only [invocation_groups] at hok
      cases hpf : process_fields (f :: fs) (Options.mk none none none none none) with
      | error e => rw [hpf] at hok; simp at hok
      | ok opts =>
        rw [hpf] at hok
        simp only [Except.ok.injEq] at hok
        subst hok
        obtain ⟨h1, h2, h3, h4, h5⟩ := process_fields_preserve (f :: fs) _ opts hpf
        refine ⟨?_, ?_, ?_, ?_, ?_⟩
        · intro hno
          constructor
          · show (opts.api.getD (RegistryNs.Gl, "GL_XML")).1 = RegistryNs.Gl
            rw [h1 hno]
            rfl
          · show (opts.api.getD (RegistryNs.Gl, "GL_XML")).2 = "GL_XML"
            rw [h1 hno]
            rfl
        · intro hno
          show opts.profile.getD "core" = "core"
          rw [h2 hno]
          rfl
        · intro hno
          show opts.version.getD "1.0" = "1.0"
          rw [h3 hno]
          rfl
        · intro hno
          show opts.generator.getD "static" = "static"
          rw [h4 hno]
          rfl
        · intro hno
          show opts.extensions.getD [] = []
          rw [h5 hno]
          rfl

theorem spec_c10_witness :
    generate_bindings [FieldArg.api "gl", FieldArg.api "gl"]
      ≠ Except.ok (Config.mk RegistryNs.Gl "GL_XML" "core" "1.0" "static" []) ∧
    generate_bindings [] = Except.error
      "Expected a generator argument name, either: `api`, `profile`, `version`, `generator`, or `extensions`." ∧
    generate_bindings [FieldArg.api "gl"] =
      Except.ok (Config.mk RegistryNs.Gl "GL_XML" "core" "1.0" "static" []) ∧
    (Config.mk RegistryNs.Gl "GL_XML" "core" "4.5" "static" []).profile = "core" := by
  have h := spec_c10
  refine ⟨h.1 [FieldArg.api "gl", FieldArg.api "gl"] FieldKind.api
    (Config.mk RegistryNs.Gl "GL_XML" "core" "1.0" "static" []) (by decide), h.2.1, h.2.2.1, ?_⟩
  exact (h.2.2.2 [FieldArg.version "4.5"]
      (Config.mk RegistryNs.Gl "GL_XML" "core" "4.5" "static" []) (by decide)).2.1
    (fun x hx => by simp at hx)
